import Mathlib

/-!
Verification of the adaptive-learning pipeline of the HackathonKavakOpenIA
repository: a shallow embedding, in Lean 4, of the agent dispatcher
(`AgentCommunication`), the judge (`ResponseEvaluator`), the preference
manager (`SystemPromptGenerator`), the preference-stat updates of
`userPreferencesService`, and the retry-gated generate/evaluate loops of
`chatController` (`generateAIResponse`, `generateInitialExplanation`),
together with theorems settling the specified properties of each.
-/

set_option autoImplicit false

namespace AdaptiveLearning

/-! ## String utilities

JavaScript `String.prototype.includes` and `toLowerCase`, modelled on
character lists. -/

/-- Boolean test that `p` is a prefix of `l` (character lists). -/
def listPrefixOf : List Char → List Char → Bool
  | [], _ => true
  | _ :: _, [] => false
  | a :: as, b :: bs => a == b && listPrefixOf as bs

/-- Boolean test that `p` occurs as a contiguous substring of `l`;
this is JavaScript `l.includes(p)` on character lists. -/
def substrAt : List Char → List Char → Bool
  | p, [] => listPrefixOf p []
  | p, h :: t => listPrefixOf p (h :: t) || substrAt p t

/-- `lowerData s` is the character list of `s.toLowerCase()`. -/
def lowerData (s : String) : List Char :=
  s.data.map Char.toLower

/-- `includesL hay pat` models `hay.includes(pat)` where `hay` is an
already-lowercased character list and `pat` a pattern string. -/
def includesL (hay : List Char) (pat : String) : Bool :=
  substrAt pat.data hay

/-! ## Judge: `ResponseEvaluator` (src/unnamed/part_005)

The evaluator either parses a JSON evaluation out of the model output
(`evaluateResponse`, normal path) or falls back to a deterministic
heuristic (`createFallbackEvaluation`).  Scores are rationals, mirroring
JavaScript numbers on the arithmetic the code performs. -/

/-- `PASSING_SCORE` from the `ResponseEvaluator` constructor. -/
def PASSING_SCORE : ℚ := 70

/-- One rubric criterion as stored by the evaluator: a weight and a
description. -/
structure RubricEntry where
  weight : ℚ
  description : String
deriving DecidableEq

/-- The five-criteria rubric object of the evaluator. -/
structure Rubric where
  accuracy : RubricEntry
  clarity : RubricEntry
  relevance : RubricEntry
  pedagogy : RubricEntry
  alignment : RubricEntry
deriving DecidableEq

/-- `getDefaultRubric` of `ResponseEvaluator`. -/
def getDefaultRubric : Rubric where
  accuracy := ⟨0.30, "Information is correct and factual"⟩
  clarity := ⟨0.25, "Explanation is clear and easy to understand"⟩
  relevance := ⟨0.20, "Directly addresses the question"⟩
  pedagogy := ⟨0.15, "Uses good teaching techniques (examples, structure)"⟩
  alignment := ⟨0.10, "Matches learning preferences"⟩

/-- Sum of the five rubric weights. -/
def Rubric.weightSum (r : Rubric) : ℚ :=
  r.accuracy.weight + r.clarity.weight + r.relevance.weight +
    r.pedagogy.weight + r.alignment.weight

/-- One per-criterion score entry. -/
structure ScoreEntry where
  score : ℚ
  feedback : String
deriving DecidableEq

/-- The per-criterion scores object. -/
structure EvalScores where
  accuracy : ScoreEntry
  clarity : ScoreEntry
  relevance : ScoreEntry
  pedagogy : ScoreEntry
  alignment : ScoreEntry
deriving DecidableEq

/-- The structured evaluation record the judge returns. -/
structure Evaluation where
  rubric : Rubric
  scores : Option EvalScores
  totalScore : ℚ
  passed : Bool
  passingScore : ℚ
  overallFeedback : String
  improvements : List String
deriving DecidableEq

/-- The fields `evaluateResponse` reads off the JSON parsed from the
model output; each is optional because the model may omit it. -/
structure ParsedEvaluation where
  rubric : Option Rubric := none
  scores : Option EvalScores := none
  totalScore : Option ℚ := none
  overallFeedback : Option String := none
  improvements : Option (List String) := none
deriving DecidableEq

/-- Normal path of `evaluateResponse`: validation of the parsed JSON into
the structured evaluation (`const totalScore = evaluation.totalScore || 0;
const passed = totalScore >= this.PASSING_SCORE; ...`). -/
def mkStructuredEvaluation (parsed : ParsedEvaluation) : Evaluation :=
  let totalScore := parsed.totalScore.getD 0
  { rubric := parsed.rubric.getD getDefaultRubric
    scores := parsed.scores
    totalScore := totalScore
    passed := decide (totalScore ≥ PASSING_SCORE)
    passingScore := PASSING_SCORE
    overallFeedback := parsed.overallFeedback.getD ""
    improvements := parsed.improvements.getD [] }

/-- JavaScript split on a single space character: consecutive separators
produce empty fragments, and the empty string splits to one empty
fragment, as with `"...".split(' ')`. -/
def splitSp : List Char → List (List Char)
  | [] => [[]]
  | c :: rest =>
    if c = ' ' then [] :: splitSp rest
    else
      match splitSp rest with
      | [] => [[c]]
      | w :: ws => (c :: w) :: ws

/-- Test for the list-marker regex of `createFallbackEvaluation` (digits
followed by a period, a bullet, or a dash): the text contains a dash, a
bullet, or a digit immediately followed by a period. -/
def hasListMarker : List Char → Bool
  | [] => false
  | c :: rest =>
    (c = '-' || c = '•' ||
      (c.isDigit && match rest with | '.' :: _ => true | _ => false)) ||
    hasListMarker rest

/-- `createFallbackEvaluation(teachingResponse, userMessage)`: the
deterministic heuristic evaluation used when the judge model fails. -/
def createFallbackEvaluation (teachingResponse userMessage : String) :
    Evaluation :=
  let wordCount : ℕ := (splitSp teachingResponse.data).length
  let score1 : ℤ :=
    if 50 ≤ wordCount ∧ wordCount ≤ 500 then 50 + 15
    else if wordCount < 20 then 50 - 20
    else 50
  let questionWords : List (List Char) :=
    (splitSp (lowerData userMessage)).filter (fun w => 3 < w.length)
  let responseText : List Char := lowerData teachingResponse
  let addressedWords : ℕ :=
    (questionWords.filter (fun w => substrAt w responseText)).length
  let score2 : ℤ :=
    score1 + ((addressedWords * 20) / max questionWords.length 1 : ℕ)
  let score3 : ℤ :=
    score2 + (if includesL responseText "example" then 5 else 0)
  let score4 : ℤ :=
    score3 +
      (if includesL responseText "for instance" ||
          includesL responseText "for example" then 5 else 0)
  let score5 : ℤ := score4 + (if hasListMarker responseText then 5 else 0)
  let score : ℚ := ((max 0 (min 100 score5) : ℤ) : ℚ)
  { rubric := getDefaultRubric
    scores := some
      { accuracy := ⟨score * 0.3, "Heuristic evaluation"⟩
        clarity := ⟨score * 0.25, "Based on length and structure"⟩
        relevance := ⟨score * 0.2, "Based on keyword matching"⟩
        pedagogy := ⟨score * 0.15, "Checked for examples"⟩
        alignment := ⟨score * 0.1, "Default evaluation"⟩ }
    totalScore := score
    passed := decide (score ≥ PASSING_SCORE)
    passingScore := PASSING_SCORE
    overallFeedback :=
      if decide (score ≥ PASSING_SCORE) then
        "Response meets basic quality standards"
      else "Response needs improvement"
    improvements :=
      if decide (score ≥ PASSING_SCORE) then []
      else ["Add more specific examples", "Improve clarity and structure",
            "Better address the question"] }

/-! ## Dispatcher: `AgentCommunication` and `BaseAgent`
(src/unnamed/part_001)

Messages carry an arbitrary payload type `γ`; agent responses carry an
arbitrary data type `δ`.  A worker that may throw is modelled as a
function into `Except String`, the error being the thrown message.  The
wall-clock `timestamp` field of a message is not modelled. -/

/-- The `type` field of an agent message. -/
inductive MessageType where
  | request
  | response
  | notification
deriving DecidableEq

/-- The `priority` field of an agent message. -/
inductive MessagePriority where
  | low
  | medium
  | high
  | urgent
deriving DecidableEq

/-- An envelope routed by `AgentCommunication.sendMessage`; `source` and
`target` are the `from`/`to` fields of the source. -/
structure AgentMessage (γ : Type) where
  source : String
  target : String
  mtype : MessageType
  content : γ
  priority : MessagePriority

/-- The uniform `AgentResponse` contract (`createResponse`). -/
structure AgentResponse (δ : Type) where
  success : Bool
  data : Option δ
  error : Option String

/-- An agent as the dispatcher sees it: `receiveMessage` may throw
(modelled by `Except.error`). -/
structure Agent (γ δ : Type) where
  receive : AgentMessage γ → Except String (AgentResponse δ)

/-- `BaseAgent.receiveMessage`: wraps the subclass `processMessage`
(which may throw) and converts any exception into a failure response. -/
def BaseAgent.receiveMessage {γ δ : Type}
    (process : AgentMessage γ → Except String (AgentResponse δ))
    (m : AgentMessage γ) : AgentResponse δ :=
  match process m with
  | .ok r => r
  | .error e => ⟨false, none, some e⟩

/-- State of the `AgentCommunication` dispatcher: the registered agents
(a name-keyed map, modelled as an association list where `registerAgent`
overwrites) and the message history (the `messageHistory` array). -/
structure CommState (γ δ : Type) where
  agents : List (String × Agent γ δ)
  messageHistory : List (AgentMessage γ)

/-- `Map.get(name)` on the agents map. -/
def lookupAgent {γ δ : Type} (agents : List (String × Agent γ δ))
    (name : String) : Option (Agent γ δ) :=
  match agents.find? (fun p => p.1 == name) with
  | some p => some p.2
  | none => none

/-- The envelope `sendMessage` constructs before delivery. -/
def mkMessage {γ : Type} (source target : String) (content : γ)
    (mtype : MessageType) (priority : MessagePriority) : AgentMessage γ :=
  ⟨source, target, mtype, content, priority⟩

/-- `AgentCommunication.sendMessage(from, to, content, type, priority)`:
looks up the recipient (absence is a normal failure response), appends
the envelope to the history, then delivers; a thrown exception from the
recipient is converted into a failure response. -/
def AgentCommunication.sendMessage {γ δ : Type} (st : CommState γ δ)
    (source target : String) (content : γ)
    (mtype : MessageType := .request)
    (priority : MessagePriority := .medium) :
    AgentResponse δ × CommState γ δ :=
  match lookupAgent st.agents target with
  | none =>
    (⟨false, none,
      some ("Recipient agent \x27" ++ target ++ "\x27 not found")⟩, st)
  | some recipientAgent =>
    let message := mkMessage source target content mtype priority
    let st' := { st with messageHistory := st.messageHistory ++ [message] }
    match recipientAgent.receive message with
    | .ok response => (response, st')
    | .error e => (⟨false, none, some e⟩, st')

/-- `n` successive `sendMessage` calls with the same arguments. -/
def sendN {γ δ : Type} (n : ℕ) (st : CommState γ δ)
    (source target : String) (content : γ) : CommState γ δ :=
  match n with
  | 0 => st
  | n + 1 =>
    sendN n (AgentCommunication.sendMessage st source target content).2
      source target content

/-! ## Preference records and `SystemPromptGenerator.updateUserPreferences`
(src/backend/src/agents/individual/SystemPromptGenerator.js, lines 390-483)

The per-user preference record, the update object produced by preference
analysis, and the pure state transformation performed by
`updateUserPreferences`: first the sets (each `!== null && !== undefined`
guard is an `Option` match), then the removals. -/

/-- The `custom_preferences` JSONB object, restricted to the two keys the
code reads and writes. -/
structure CustomPrefs where
  formatPreference : Option String := none
  output_format : Option String := none
deriving DecidableEq

/-- The in-memory user preference record built by `getUserPreferences`. -/
structure Prefs where
  learningStyle : String
  pace : String
  complexity : String
  explanationStyle : String
  formatPreference : String
  wants_examples : Bool
  wants_analogies : Bool
  wants_exercises : Bool
  custom : CustomPrefs
deriving DecidableEq

/-- The documented default preference record. -/
def defaultPrefs : Prefs where
  learningStyle := "mixed"
  pace := "normal"
  complexity := "intermediate"
  explanationStyle := "balanced"
  formatPreference := "text"
  wants_examples := true
  wants_analogies := true
  wants_exercises := true
  custom := { formatPreference := some "text", output_format := some "text" }

/-- The `updates` object handed to `updateUserPreferences`: optional sets
plus the `removePreferences` list of field names. -/
structure PrefUpdates where
  formatPreference : Option String := none
  explanation_style : Option String := none
  learningStyle : Option String := none
  pace : Option String := none
  complexity : Option String := none
  wants_examples : Option Bool := none
  wants_analogies : Option Bool := none
  wants_exercises : Option Bool := none
  removePreferences : List String := []
deriving DecidableEq

/-- The sets phase of `updateUserPreferences`: each provided field is
written into the new record (format preference also into both
`custom_preferences` keys). -/
def applyPrefSets (cur : Prefs) (updates : PrefUpdates) :
    Prefs × CustomPrefs :=
  let newPrefs := cur
  let customPrefs := cur.custom
  let (newPrefs, customPrefs) :=
    match updates.formatPreference with
    | some v =>
      ({ newPrefs with formatPreference := v },
       { customPrefs with formatPreference := some v, output_format := some v })
    | none => (newPrefs, customPrefs)
  let newPrefs :=
    match updates.explanation_style with
    | some v => { newPrefs with explanationStyle := v }
    | none => newPrefs
  let newPrefs :=
    match updates.learningStyle with
    | some v => { newPrefs with learningStyle := v }
    | none => newPrefs
  let newPrefs :=
    match updates.pace with
    | some v => { newPrefs with pace := v }
    | none => newPrefs
  let newPrefs :=
    match updates.complexity with
    | some v => { newPrefs with complexity := v }
    | none => newPrefs
  let newPrefs :=
    match updates.wants_examples with
    | some v => { newPrefs with wants_examples := v }
    | none => newPrefs
  let newPrefs :=
    match updates.wants_analogies with
    | some v => { newPrefs with wants_analogies := v }
    | none => newPrefs
  let newPrefs :=
    match updates.wants_exercises with
    | some v => { newPrefs with wants_exercises := v }
    | none => newPrefs
  (newPrefs, customPrefs)

/-- One step of the `removePreferences.forEach` loop: the matched field is
reset to its documented default (a concrete value, never null). -/
def removeOnePref (s : Prefs × CustomPrefs) (pref : String) :
    Prefs × CustomPrefs :=
  let s := if pref = "formatPreference" ∨ pref = "output_format" then
      ({ s.1 with formatPreference := "text" },
       { s.2 with output_format := some "text" })
    else s
  let s := if pref = "explanation_style" then
      ({ s.1 with explanationStyle := "balanced" }, s.2) else s
  let s := if pref = "learningStyle" then
      ({ s.1 with learningStyle := "mixed" }, s.2) else s
  let s := if pref = "pace" then
      ({ s.1 with pace := "normal" }, s.2) else s
  let s := if pref = "complexity" then
      ({ s.1 with complexity := "intermediate" }, s.2) else s
  let s := if pref = "wants_examples" then
      ({ s.1 with wants_examples := true }, s.2) else s
  let s := if pref = "wants_analogies" then
      ({ s.1 with wants_analogies := true }, s.2) else s
  let s := if pref = "wants_exercises" then
      ({ s.1 with wants_exercises := true }, s.2) else s
  s

/-- The pure record transformation of `updateUserPreferences`: sets are
applied first, then the removals run over the result, and the final
custom object is written back. -/
def applyPrefUpdates (cur : Prefs) (updates : PrefUpdates) : Prefs :=
  let afterSets := applyPrefSets cur updates
  let final := updates.removePreferences.foldl removeOnePref afterSets
  { final.1 with custom := final.2 }

/-! ## Preference detection: `analyzeAndUpdatePreferences`
(src/backend/src/agents/individual/SystemPromptGenerator.js, lines 83-294)

The post-LLM validation logic: keyword scans over the lowercased user
message (the like loop, the hate loop, and the three legacy hate checks),
on top of whatever JSON the model produced.  A failed JSON parse, and the
TypeError raised by the second legacy check when `analysis.updates` is
absent, both land in the catch branch. -/

/-- The three output formats known to the format-keyword tables. -/
inductive Fmt where
  | flashcards
  | video
  | text
deriving DecidableEq

/-- Format names as the strings the code manipulates. -/
def fmtName : Fmt → String
  | .flashcards => "flashcards"
  | .video => "video"
  | .text => "text"

/-- The `formatKeywords` table. -/
def fmtKeywords : Fmt → List String
  | .flashcards =>
    ["flashcard", "flash card", "cards", "quiz me", "test me", "memorize"]
  | .video => ["video", "visual", "show me", "watch", "demonstration", "demo"]
  | .text => ["text", "read", "written", "write it", "explain in writing",
              "article"]

/-- Iteration order of `Object.entries(formatKeywords)` (insertion
order). -/
def fmtOrder : List Fmt := [.flashcards, .video, .text]

/-- The `likePatterns` list. -/
def likePatterns : List String :=
  ["i like", "i prefer", "i want", "give me", "use", "show me", "make"]

/-- The `hatePatterns` list. -/
def hatePatterns : List String :=
  ["i hate", "no", "don\x27t", "not", "avoid", "dislike"]

/-- The `alternatives` substitution table used when a hated format is
detected. -/
def alternatives : Fmt → String
  | .text => "flashcards"
  | .flashcards => "video"
  | .video => "flashcards"

/-- Whether the lowercased message contains any keyword of format `f`
(the inner keyword loop, which breaks on the first hit). -/
def hasKeywordOf (msg : List Char) (f : Fmt) : Bool :=
  (fmtKeywords f).any (fun k => includesL msg k)

/-- The mutable state threaded through the scans: `preferredFormat`, the
`updates.formatPreference` slot, and the `preferencesChanged` flag. -/
structure ScanState where
  preferredFormat : String
  updFormat : Option String
  changed : Bool
deriving DecidableEq

/-- One pass of the like loop's inner format loop for a single matched
pattern: each format with a keyword hit becomes the preferred format. -/
def likeSweep (msg : List Char) (st : ScanState) : ScanState :=
  fmtOrder.foldl
    (fun s f => if hasKeywordOf msg f then ⟨fmtName f, some (fmtName f), true⟩
      else s) st

/-- One pass of the hate loop's inner format loop for a single matched
pattern: each format with a keyword hit is replaced by its alternative. -/
def hateSweep (msg : List Char) (st : ScanState) : ScanState :=
  fmtOrder.foldl
    (fun s f => if hasKeywordOf msg f then
        ⟨alternatives f, some (alternatives f), true⟩
      else s) st

/-- The like loop over `likePatterns`. -/
def likeLoop (msg : List Char) (st : ScanState) : ScanState :=
  likePatterns.foldl
    (fun s p => if includesL msg p then likeSweep msg s else s) st

/-- The hate loop over `hatePatterns`. -/
def hateLoop (msg : List Char) (st : ScanState) : ScanState :=
  hatePatterns.foldl
    (fun s p => if includesL msg p then hateSweep msg s else s) st

/-- JavaScript `a || b` on an optional string (null/undefined and the
empty string are falsy). -/
def jsOrStr (o : Option String) (d : String) : String :=
  match o with
  | some s => if s = "" then d else s
  | none => d

/-- JavaScript `a || b` on an optional number (null/undefined and 0 are
falsy). -/
def jsOrNum (o : Option ℚ) (d : ℚ) : ℚ :=
  match o with
  | some x => if x = 0 then d else x
  | none => d

/-- The fields of the JSON object `analyzeAndUpdatePreferences` extracts
from the model output; every field may be missing. -/
structure PrefAnalysis where
  preferredFormat : Option String := none
  preferencesChanged : Option Bool := none
  updates : Option PrefUpdates := none
  confidence : Option ℚ := none
deriving DecidableEq

/-- The `formatAnalysis` object returned to the caller. -/
structure FormatAnalysis where
  preferredFormat : String
  confidence : ℚ
  preferencesUpdated : Bool
  currentPreferences : Prefs
deriving DecidableEq

/-- The catch branch of `analyzeAndUpdatePreferences`: fall back to the
stored preferences. -/
def analysisFallback (cur : Prefs) : FormatAnalysis where
  preferredFormat := jsOrStr (some cur.formatPreference) "text"
  confidence := 50
  preferencesUpdated := false
  currentPreferences := cur

/-- The try branch of `analyzeAndUpdatePreferences` after JSON
extraction: enhanced keyword detection, the three legacy hate checks
(the second one dereferences `analysis.updates` and throws when it is
absent, modelled as `Except.error`), then the conditional preference
update (`dbOk` tells whether the database write succeeds). -/
def analyzeCore (analysis : PrefAnalysis) (cur : Prefs)
    (userMessage : String) (dbOk : Bool) : Except Unit FormatAnalysis :=
  let lowerMessage := lowerData userMessage
  let updates0 := analysis.updates.getD {}
  let pf0 := jsOrStr analysis.preferredFormat
    (jsOrStr (some cur.formatPreference) "text")
  let changed0 := analysis.preferencesChanged.getD false
  let st0 : ScanState := ⟨pf0, updates0.formatPreference, changed0⟩
  let st1 := likeLoop lowerMessage st0
  let st2 := hateLoop lowerMessage st1
  let st3 :=
    if includesL lowerMessage "hate text" ||
        includesL lowerMessage "too much text" then
      (if st2.preferredFormat = "text" then
        (⟨"flashcards", some "flashcards", true⟩ : ScanState) else st2)
    else st2
  let st4e : Except Unit ScanState :=
    if includesL lowerMessage "hate flashcard" then
      if st3.preferredFormat = "flashcards" then
        match analysis.updates with
        | none => .error ()
        | some _ => .ok ⟨"video", some "video", true⟩
      else .ok st3
    else .ok st3
  match st4e with
  | .error e => .error e
  | .ok st4 =>
    let st5 :=
      if includesL lowerMessage "hate video" then
        (if st4.preferredFormat = "video" then
          (⟨"flashcards", some "flashcards", true⟩ : ScanState) else st4)
      else st4
    let finalUpdates := { updates0 with formatPreference := st5.updFormat }
    let newCur :=
      if st5.changed then
        (if dbOk then applyPrefUpdates cur finalUpdates else cur)
      else cur
    .ok { preferredFormat := st5.preferredFormat
          confidence := jsOrNum analysis.confidence 90
          preferencesUpdated := st5.changed
          currentPreferences := newCur }

/-- `analyzeAndUpdatePreferences`, as a function of the parsed model
output (`none` models a JSON-extraction failure), the stored current
preferences, the raw user message, and database availability. -/
def analyzeAndUpdatePreferences (parsed : Option PrefAnalysis)
    (cur : Prefs) (userMessage : String) (dbOk : Bool) : FormatAnalysis :=
  match parsed with
  | none => analysisFallback cur
  | some analysis =>
    match analyzeCore analysis cur userMessage dbOk with
    | .ok fa => fa
    | .error _ => analysisFallback cur

/-- The spec's selection rule: the next-best of the remaining known
formats by the fixed precedence order [Flashcards, Video, Text].  Stated
from the spec's words to compare with the code's `alternatives` table. -/
def specNextBestFormat (x : Fmt) : String :=
  match ([Fmt.flashcards, Fmt.video, Fmt.text].filter (fun f => f ≠ x)) with
  | [] => "text"
  | f :: _ => fmtName f

/-! ## Preference cache: `SystemPromptGenerator.getUserPreferences` and
the cache write of `updateUserPreferences`
(SystemPromptGenerator.js, lines 300-384 and 473-478)

The generator keeps `this.userPreferences`, an in-memory per-user cache
consulted before any database read.  Other components (for example
`chatController`'s direct UPDATE of `user_preferences`) write the
database without touching this cache. -/

/-- Association-list update that overwrites an existing key or appends,
like `Map.prototype.set`. -/
def setAssoc {β : Type} (l : List (String × β)) (k : String) (v : β) :
    List (String × β) :=
  match l with
  | [] => [(k, v)]
  | (k', v') :: rest =>
    if k' = k then (k, v) :: rest else (k', v') :: setAssoc rest k v

/-- Association-list lookup, like `Map.prototype.get`. -/
def getAssoc {β : Type} (l : List (String × β)) (k : String) : Option β :=
  match l with
  | [] => none
  | (k', v') :: rest => if k' = k then some v' else getAssoc rest k

/-- State seen by `SystemPromptGenerator`: its in-memory cache and the
`user_preferences` table (each row abbreviated to the preference record
the SELECT produces). -/
structure SPGState where
  cache : List (String × Prefs)
  db : List (String × Prefs)
deriving DecidableEq

/-- Result of a `getUserPreferences` call: the returned record, the new
state, and whether the database was read. -/
structure SPGGetResult where
  prefs : Prefs
  state : SPGState
  dbRead : Bool
deriving DecidableEq

/-- `SystemPromptGenerator.getUserPreferences(userId)`: returns the
cached record when present (no database access); otherwise reads the
row, or inserts defaults when absent, and fills the cache. -/
def SPG.getUserPreferences (st : SPGState) (userId : String) :
    SPGGetResult :=
  match getAssoc st.cache userId with
  | some cached => ⟨cached, st, false⟩
  | none =>
    match getAssoc st.db userId with
    | some row => ⟨row, { st with cache := setAssoc st.cache userId row }, true⟩
    | none =>
      ⟨defaultPrefs,
       { cache := setAssoc st.cache userId defaultPrefs,
         db := setAssoc st.db userId defaultPrefs }, true⟩

/-- The state effect of `SystemPromptGenerator.updateUserPreferences`:
the new record is written to the table and to the cache. -/
def SPG.updateUserPreferences (st : SPGState) (userId : String)
    (updates : PrefUpdates) (currentPrefs : Prefs) : Prefs × SPGState :=
  let newPrefs := applyPrefUpdates currentPrefs updates
  (newPrefs,
   { cache := setAssoc st.cache userId newPrefs,
     db := setAssoc st.db userId newPrefs })

/-- A `user_preferences` write performed by another component (for
example `chatController`'s direct UPDATE): it changes the table but not
the generator's cache. -/
def externalDbWrite (st : SPGState) (userId : String) (row : Prefs) :
    SPGState :=
  { st with db := setAssoc st.db userId row }

/-! ## Change counter: `preference_changes_count`
(SystemPromptGenerator.js lines 446-471, chatController.js lines
506-511, userPreferencesService `incrementInteractionStats`)

The operations the code performs on one user's stored row, and their
effect on the interaction counters. -/

/-- The counter columns `incrementInteractionStats` accepts. -/
inductive StatField where
  | stuck_count
  | preference_changes_count
  | total_interactions
deriving DecidableEq

/-- The four columns `chatController` writes directly (from
`analysis.newPreferences`), bypassing the generator. -/
structure DirectPrefUpdate where
  explanation_style : Option String := none
  wants_examples : Option Bool := none
  wants_analogies : Option Bool := none
  pace : Option String := none
deriving DecidableEq

/-- Apply a direct column update to a preference record. -/
def applyDirect (p : Prefs) (u : DirectPrefUpdate) : Prefs :=
  { p with
    explanationStyle := u.explanation_style.getD p.explanationStyle
    wants_examples := u.wants_examples.getD p.wants_examples
    wants_analogies := u.wants_analogies.getD p.wants_analogies
    pace := u.pace.getD p.pace }

/-- One user's stored `user_preferences` row: the preference columns plus
the three counters. -/
structure StoredPrefRow where
  prefs : Prefs
  preference_changes_count : ℕ
  stuck_count : ℕ
  total_interactions : ℕ
deriving DecidableEq

/-- The operations the code performs on the row. -/
inductive PrefOp where
  /-- `SystemPromptGenerator.updateUserPreferences`: applies a delta and
  bumps `preference_changes_count` in one UPDATE; `dbOk = false` is the
  caught query failure, leaving the row unchanged. -/
  | applyDelta (updates : PrefUpdates) (dbOk : Bool)
  /-- `incrementInteractionStats(userId, field)`. -/
  | incrementStat (field : StatField)
  /-- `chatController`'s direct UPDATE of preference columns; it does not
  touch any counter. -/
  | directUpdate (u : DirectPrefUpdate)
deriving DecidableEq

/-- Effect of one operation on the stored row. -/
def PrefOp.step (row : StoredPrefRow) : PrefOp → StoredPrefRow
  | .applyDelta updates dbOk =>
    if dbOk then
      { row with prefs := applyPrefUpdates row.prefs updates,
                 preference_changes_count :=
                   row.preference_changes_count + 1 }
    else row
  | .incrementStat f =>
    match f with
    | .stuck_count => { row with stuck_count := row.stuck_count + 1 }
    | .preference_changes_count =>
      { row with preference_changes_count :=
          row.preference_changes_count + 1 }
    | .total_interactions =>
      { row with total_interactions := row.total_interactions + 1 }
  | .directUpdate u => { row with prefs := applyDirect row.prefs u }

/-- Run a sequence of operations. -/
def runPrefOps (row : StoredPrefRow) (ops : List PrefOp) : StoredPrefRow :=
  ops.foldl PrefOp.step row

/-- An accepted preference delta. -/
def PrefOp.acceptedDelta : PrefOp → Bool
  | .applyDelta _ dbOk => dbOk
  | _ => false

/-- A direct bump of `preference_changes_count` through
`incrementInteractionStats` (chatController performs one per detected
new preference). -/
def PrefOp.statBump : PrefOp → Bool
  | .incrementStat .preference_changes_count => true
  | _ => false

/-! ## Retry-gated generate/evaluate loop
(chatController.js: `generateAIResponse` lines 628-733,
`generateInitialExplanation` lines 229-321)

Both endpoints run the same `while (attempts < maxAttempts)` loop: call
the teacher, and on success evaluate; break on a passing evaluation.  A
generation failure on the final attempt aborts (HTTP 500 in
`generateAIResponse`, a thrown error in `generateInitialExplanation`);
any other failure retries.  Worker calls go through the dispatcher and
therefore never throw; their outcomes are an oracle indexed by attempt
number.  Database operations other than the modelled store read are
assumed to succeed. -/

/-- The evaluation fields the controller reads. -/
structure ChatEval where
  passed : Bool
  totalScore : ℚ
  overallFeedback : String
deriving DecidableEq

/-- The default evaluation substituted when the evaluator call fails
(`evaluationResponse.success` false). -/
def evalFailedDefault : ChatEval := ⟨false, 0, "Evaluation failed"⟩

/-- Outcome of one loop iteration's worker calls: whether the teaching
call succeeded, and the evaluation response (absent when the evaluator
call failed). -/
structure AttemptOutcome where
  genOk : Bool
  evalResp : Option ChatEval
deriving DecidableEq

/-- The evaluation the controller ends the iteration with. -/
def attemptEval (o : AttemptOutcome) : ChatEval :=
  o.evalResp.getD evalFailedDefault

/-- `maxAttempts` in both endpoints. -/
def maxAttempts : ℕ := 3

/-- Whether an attempt breaks the loop: generation succeeded and the
evaluation satisfies `evaluation.passed || evaluation.totalScore >= 70`. -/
def attemptPasses (o : AttemptOutcome) : Bool :=
  o.genOk && (let e := attemptEval o; e.passed || decide (e.totalScore ≥ 70))

/-- How the retry loop ends. -/
inductive LoopExit where
  /-- The teaching call failed with `attempts === maxAttempts`. -/
  | genFailure
  /-- The loop finished at `attempts` with the last evaluation seen
  (`none` only if no evaluation was ever produced). -/
  | done (attempts : ℕ) (evaluation : Option ChatEval)
deriving DecidableEq

/-- The retry loop, with fuel `maxAttempts - attempts` making the
`while` bound explicit.  `outs n` is the outcome of attempt `n`. -/
def teachLoopAux (outs : ℕ → AttemptOutcome) :
    ℕ → Option ChatEval → ℕ → LoopExit
  | 0, ev, attempts => .done attempts ev
  | fuel + 1, ev, attempts =>
    if attempts < maxAttempts then
      let a := attempts + 1
      let o := outs a
      if o.genOk then
        let e := attemptEval o
        if e.passed || decide (e.totalScore ≥ 70) then .done a (some e)
        else teachLoopAux outs fuel (some e) a
      else if a = maxAttempts then .genFailure
      else teachLoopAux outs fuel ev a
    else .done attempts ev

/-- The retry loop as both endpoints enter it: `attempts = 0`, no
evaluation yet. -/
def teachLoop (outs : ℕ → AttemptOutcome) : LoopExit :=
  teachLoopAux outs maxAttempts none 0

/-- Number of generate/evaluate attempts the loop consumed. -/
def LoopExit.attemptsTaken : LoopExit → ℕ
  | .genFailure => maxAttempts
  | .done a _ => a

/-- What `generateAIResponse` sends after the loop. -/
inductive AIOutcome where
  /-- HTTP 500: `Failed to generate teaching response after retries`. -/
  | genFailure
  /-- The JSON body with `passed: false` and `attemptsUsed: maxAttempts`
  sent when the final evaluation is below threshold. -/
  | lowQuality (attemptsUsed : ℕ) (score : ℚ)
  /-- The JSON body with `passed: true` and
  `metadata.attemptsUsed = attempts`. -/
  | accepted (attemptsUsed : ℕ) (evaluation : ChatEval)
  /-- Dereferencing a null `evaluation` after the loop (unreachable). -/
  | crash
deriving DecidableEq

/-- Post-loop processing of `generateAIResponse` (steps 5-7). -/
def generateAIResponseResult (outs : ℕ → AttemptOutcome) : AIOutcome :=
  match teachLoop outs with
  | .genFailure => .genFailure
  | .done _ none => .crash
  | .done a (some ev) =>
    if ¬ ev.passed ∧ ev.totalScore < 70 then
      .lowQuality maxAttempts ev.totalScore
    else .accepted a ev

/-- The `attemptsUsed` value reported to the caller, when a response body
is produced at all. -/
def AIOutcome.attemptsUsed : AIOutcome → Option ℕ
  | .lowQuality n _ => some n
  | .accepted n _ => some n
  | _ => none

/-- A response body (rather than an error) was produced. -/
def AIOutcome.isTeachingResult : AIOutcome → Bool
  | .lowQuality _ _ => true
  | .accepted _ _ => true
  | _ => false

/-- The full `generateAIResponse` call surface: request validation, the
initial preference-store read, then the loop. -/
inductive AIResponse where
  /-- HTTP 400: message or lesson id missing. -/
  | validationError
  /-- `next(error)`: the store read threw. -/
  | serverError
  | outcome (o : AIOutcome)
deriving DecidableEq

/-- `generateAIResponse(req, res)`, as a function of whether the request
fields are present, whether the initial `getUserPreferences` store read
succeeds, and the per-attempt worker outcomes. -/
def generateAIResponse (messagePresent lessonIdPresent storeOk : Bool)
    (outs : ℕ → AttemptOutcome) : AIResponse :=
  if ¬ messagePresent then .validationError
  else if ¬ lessonIdPresent then .validationError
  else if ¬ storeOk then .serverError
  else .outcome (generateAIResponseResult outs)

/-- What `generateInitialExplanation` produces after its (identical)
loop: a thrown error when generation failed on the last attempt, else a
result carrying the final evaluation's verdict, even below threshold. -/
inductive InitialOutcome where
  | genThrow
  | result (passed : Bool) (score : ℚ)
  | crash
deriving DecidableEq

/-- Post-loop processing of `generateInitialExplanation`. -/
def generateInitialResult (outs : ℕ → AttemptOutcome) : InitialOutcome :=
  match teachLoop outs with
  | .genFailure => .genThrow
  | .done _ none => .crash
  | .done _ (some ev) => .result ev.passed ev.totalScore

/-- The first attempt number whose evaluation passed, among the at most
`maxAttempts` attempts the loop can make. -/
def firstPassingAttempt (outs : ℕ → AttemptOutcome) : Option ℕ :=
  if attemptPasses (outs 1) then some 1
  else if attemptPasses (outs 2) then some 2
  else if attemptPasses (outs 3) then some 3
  else none

/-! ## Concrete instances used by witnesses and counterexamples -/

/-- An agent whose receive call always throws. -/
def throwingAgent : Agent Unit Unit := ⟨fun _ => .error "boom"⟩

/-- An agent whose receive call always succeeds. -/
def okAgent : Agent Unit Unit := ⟨fun _ => .ok ⟨true, none, none⟩⟩

/-- Dispatcher state with one registered throwing worker. -/
def exThrowSt : CommState Unit Unit := ⟨[("Judge", throwingAgent)], []⟩

/-- Dispatcher state with one registered succeeding worker and an empty
history. -/
def exOkSt : CommState Unit Unit := ⟨[("B", okAgent)], []⟩

/-- A cached preference record differing from the stored row. -/
def exCachedPrefs : Prefs := { defaultPrefs with formatPreference := "video" }

/-- Generator state whose cache already holds `u1` with a record that
differs from the table row. -/
def exSPGSt : SPGState :=
  ⟨[("u1", exCachedPrefs)], [("u1", defaultPrefs)]⟩

/-- A delta that sets and removes the same two fields. -/
def exRemovalUp : PrefUpdates :=
  { formatPreference := some "video", pace := some "fast",
    removePreferences := ["formatPreference", "pace"] }

/-- Worker outcomes where attempt 1 scores 55 and attempt 2 scores 81. -/
def exOuts : ℕ → AttemptOutcome := fun n =>
  if n = 1 then ⟨true, some ⟨false, 55, "needs work"⟩⟩
  else ⟨true, some ⟨false, 81, "good"⟩⟩

/-! ## Theorems -/

theorem listPrefixOf_iff (p : List Char) :
    ∀ l, listPrefixOf p l = true ↔ ∃ t, p ++ t = l := by
  induction p with
  | nil =>
    intro l
    simp [listPrefixOf]
  | cons a as ih =>
    intro l
    cases l with
    | nil =>
      simp [listPrefixOf]
    | cons b bs =>
      simp only [listPrefixOf, Bool.and_eq_true, beq_iff_eq, ih bs,
        List.cons_append, List.cons.injEq]
      constructor
      · rintro ⟨hab, t, ht⟩
        exact ⟨t, hab, ht⟩
      · rintro ⟨t, hab, ht⟩
        exact ⟨hab, t, ht⟩

theorem substrAt_iff (p : List Char) :
    ∀ l, substrAt p l = true ↔ ∃ s t, s ++ p ++ t = l := by
  intro l
  induction l with
  | nil =>
    simp only [substrAt, listPrefixOf_iff]
    constructor
    · rintro ⟨t, ht⟩
      exact ⟨[], t, by simpa using ht⟩
    · rintro ⟨s, t, ht⟩
      rcases List.append_eq_nil.mp ht with ⟨h1, h2⟩
      rcases List.append_eq_nil.mp h1 with ⟨h3, h4⟩
      exact ⟨t, by simp [h2, h4]⟩
  | cons h t ih =>
    simp only [substrAt, Bool.or_eq_true, listPrefixOf_iff, ih]
    constructor
    · rintro (⟨u, hu⟩ | ⟨s, u, hu⟩)
      · exact ⟨[], u, by simpa using hu⟩
      · exact ⟨h :: s, u, by simp [hu]⟩
    · rintro ⟨s, u, hu⟩
      cases s with
      | nil =>
        exact Or.inl ⟨u, by simpa using hu⟩
      | cons s0 srest =>
        simp only [List.cons_append, List.cons.injEq] at hu
        exact Or.inr ⟨srest, u, hu.2⟩

theorem substrAt_trans {p q l : List Char}
    (hpq : substrAt p q = true) (hql : substrAt q l = true) :
    substrAt p l = true := by
  rcases (substrAt_iff p q).mp hpq with ⟨s1, t1, h1⟩
  rcases (substrAt_iff q l).mp hql with ⟨s2, t2, h2⟩
  refine (substrAt_iff p l).mpr ⟨s2 ++ s1, t1 ++ t2, ?_⟩
  subst h1
  simpa using h2.symm ▸ by simp [List.append_assoc]

theorem sendMessage_preserves_agents {γ δ : Type} (st : CommState γ δ)
    (source target : String) (content : γ) :
    (AgentCommunication.sendMessage st source target content).2.agents =
      st.agents := by
  unfold AgentCommunication.sendMessage
  cases lookupAgent st.agents target with
  | none => rfl
  | some a =>
    simp only
    cases a.receive (mkMessage source target content .request .medium) with
    | ok r => rfl
    | error e => rfl

theorem sendMessage_history_growth {γ δ : Type} (st : CommState γ δ)
    (source target : String) (content : γ) (a : Agent γ δ)
    (hfound : lookupAgent st.agents target = some a) :
    (AgentCommunication.sendMessage st source target content).2.messageHistory
      = st.messageHistory ++
        [mkMessage source target content .request .medium] := by
  unfold AgentCommunication.sendMessage
  rw [hfound]
  simp only
  cases a.receive (mkMessage source target content .request .medium) with
  | ok r => rfl
  | error e => rfl

theorem sendN_history_length {γ δ : Type} (n : ℕ) :
    ∀ (st : CommState γ δ) (source target : String) (content : γ)
      (a : Agent γ δ), lookupAgent st.agents target = some a →
      (sendN n st source target content).messageHistory.length =
        st.messageHistory.length + n := by
  induction n with
  | zero =>
    intro st source target content a _
    rfl
  | succ n ih =>
    intro st source target content a hfound
    have hag := sendMessage_preserves_agents st source target content
    have hh := sendMessage_history_growth st source target content a hfound
    have := ih (AgentCommunication.sendMessage st source target content).2
      source target content a (by rw [hag]; exact hfound)
    simp only [sendN, this, hh, List.length_append, List.length_cons,
      List.length_nil]
    omega

/-- C7: every evaluation produced by the judge has `passed` equal to
`totalScore >= PassThreshold` with `PassThreshold = 70`, in both the
normal judge path (`evaluateResponse`) and the heuristic fallback path
(`createFallbackEvaluation`). -/
theorem passed_iff_score_ge_threshold :
    PASSING_SCORE = 70 ∧
    (∀ parsed : ParsedEvaluation,
      (mkStructuredEvaluation parsed).passed =
        decide ((mkStructuredEvaluation parsed).totalScore ≥ PASSING_SCORE)) ∧
    (∀ teachingResponse userMessage : String,
      (createFallbackEvaluation teachingResponse userMessage).passed =
        decide ((createFallbackEvaluation teachingResponse userMessage).totalScore
          ≥ PASSING_SCORE)) :=
  ⟨rfl, fun _ => rfl, fun _ _ => rfl⟩

/-- C6 counterexample: the default rubric weights are the fractions
0.30, 0.25, 0.20, 0.15, 0.10, whose sum is 1, not 100; and the normal
evaluation path does not clamp `totalScore` to [0, 100]: a parsed
totalScore of 150 is passed through unchanged. -/
theorem rubric_sum_counterexample :
    getDefaultRubric.weightSum ≠ 100 ∧
    (mkStructuredEvaluation { totalScore := some 150 }).totalScore = 150 ∧
    ¬ (mkStructuredEvaluation { totalScore := some 150 }).totalScore ≤ 100 := by
  refine ⟨?_, rfl, by decide⟩
  norm_num [getDefaultRubric, Rubric.weightSum]

/-- C6 amended: the default rubric weights sum to 1 (they are the
fractions 30/100, 25/100, 20/100, 15/100, 10/100 of the documented
percentages); the heuristic fallback path always carries the default
rubric and clamps `totalScore` into [0, 100]; the normal path takes
`totalScore` unclamped from the parsed model output, 0 when absent. -/
theorem rubric_weights_and_score_bounds :
    (getDefaultRubric.weightSum = 1 ∧
      getDefaultRubric.accuracy.weight = 30 / 100 ∧
      getDefaultRubric.clarity.weight = 25 / 100 ∧
      getDefaultRubric.relevance.weight = 20 / 100 ∧
      getDefaultRubric.pedagogy.weight = 15 / 100 ∧
      getDefaultRubric.alignment.weight = 10 / 100) ∧
    (∀ teachingResponse userMessage : String,
      (createFallbackEvaluation teachingResponse userMessage).rubric =
          getDefaultRubric ∧
        0 ≤ (createFallbackEvaluation teachingResponse userMessage).totalScore ∧
        (createFallbackEvaluation teachingResponse userMessage).totalScore ≤ 100) ∧
    (∀ parsed : ParsedEvaluation,
      (mkStructuredEvaluation parsed).totalScore = parsed.totalScore.getD 0) := by
  refine ⟨⟨?_, ?_, ?_, ?_, ?_, ?_⟩, fun r m => ⟨rfl, ?_, ?_⟩, fun _ => rfl⟩
  · norm_num [getDefaultRubric, Rubric.weightSum]
  · norm_num [getDefaultRubric]
  · norm_num [getDefaultRubric]
  · norm_num [getDefaultRubric]
  · norm_num [getDefaultRubric]
  · norm_num [getDefaultRubric]
  · show (0 : ℚ) ≤ ((max 0 (min 100 _) : ℤ) : ℚ)
    exact_mod_cast le_max_left 0 _
  · show ((max 0 (min 100 _) : ℤ) : ℚ) ≤ 100
    exact_mod_cast max_le (by norm_num) (min_le_left _ _)

/-- C8: a worker exception never crosses the dispatcher boundary: when
the recipient is registered and its receive call throws, `sendMessage`
returns a `success = false` response carrying the error instead of
propagating; and `BaseAgent.receiveMessage` likewise converts a thrown
`processMessage` into a failure response. -/
theorem sendMessage_normalizes_exceptions :
    (∀ {γ δ : Type} (st : CommState γ δ) (source target : String)
      (content : γ) (a : Agent γ δ) (e : String),
      lookupAgent st.agents target = some a →
      a.receive (mkMessage source target content .request .medium) =
        .error e →
      (AgentCommunication.sendMessage st source target content).1.success =
          false ∧
        (AgentCommunication.sendMessage st source target content).1.error =
          some e) ∧
    (∀ {γ δ : Type}
      (process : AgentMessage γ → Except String (AgentResponse δ))
      (m : AgentMessage γ) (e : String), process m = .error e →
      (BaseAgent.receiveMessage process m).success = false ∧
        (BaseAgent.receiveMessage process m).error = some e) := by
  constructor
  · intro γ δ st source target content a e hfound hthrow
    simp [AgentCommunication.sendMessage, hfound, hthrow]
  · intro γ δ process m e hthrow
    simp [BaseAgent.receiveMessage, hthrow]

/-- C8 witness: sending to the registered throwing worker produces a
failure response carrying the thrown message. -/
theorem sendMessage_normalizes_exceptions_witness :
    lookupAgent exThrowSt.agents "Judge" = some throwingAgent ∧
    throwingAgent.receive (mkMessage "Chat" "Judge" () .request .medium) =
      .error "boom" ∧
    ((AgentCommunication.sendMessage exThrowSt "Chat" "Judge" ()).1.success =
        false ∧
      (AgentCommunication.sendMessage exThrowSt "Chat" "Judge" ()).1.error =
        some "boom") :=
  ⟨rfl, rfl,
    sendMessage_normalizes_exceptions.1 exThrowSt "Chat" "Judge" ()
      throwingAgent "boom" rfl rfl⟩

/-- C5 counterexample: the message history has no cap; 1001 sends to a
registered worker leave 1001 envelopes in the history, above the claimed
1000-envelope bound. -/
theorem messageHistory_cap_counterexample :
    (sendN 1001 exOkSt "A" "B" ()).messageHistory.length = 1001 ∧
    ¬ (sendN 1001 exOkSt "A" "B" ()).messageHistory.length ≤ 1000 := by
  have h := sendN_history_length (γ := Unit) (δ := Unit) 1001 exOkSt
    "A" "B" () okAgent rfl
  have h' : (sendN 1001 exOkSt "A" "B" ()).messageHistory.length = 1001 := by
    rw [h]; rfl
  exact ⟨h', by rw [h']; decide⟩

/-- C5 amended: the dispatcher's message history is unbounded — each
`sendMessage` whose recipient is registered appends exactly one envelope
and no entry is ever evicted, so after `n` sends the history has grown by
exactly `n`; there is no cap at 1000 or anywhere else. -/
theorem messageHistory_unbounded {γ δ : Type} (n : ℕ) (st : CommState γ δ)
    (source target : String) (content : γ) (a : Agent γ δ)
    (hfound : lookupAgent st.agents target = some a) :
    (sendN n st source target content).messageHistory.length =
      st.messageHistory.length + n :=
  sendN_history_length n st source target content a hfound

/-- C5 amended witness: two sends to the registered worker grow the empty
history to exactly two envelopes. -/
theorem messageHistory_unbounded_witness :
    lookupAgent exOkSt.agents "B" = some okAgent ∧
    (sendN 2 exOkSt "A" "B" ()).messageHistory.length =
      exOkSt.messageHistory.length + 2 :=
  ⟨rfl, messageHistory_unbounded 2 exOkSt "A" "B" () okAgent rfl⟩

/-- Effect of one operation on `preference_changes_count`: an accepted
delta or a direct counter bump adds one; everything else leaves it. -/
theorem step_changes_count (row : StoredPrefRow) (op : PrefOp) :
    (PrefOp.step row op).preference_changes_count =
      row.preference_changes_count +
        (if op.acceptedDelta || op.statBump then 1 else 0) := by
  cases op with
  | applyDelta updates dbOk =>
    cases dbOk <;>
      simp [PrefOp.step, PrefOp.acceptedDelta, PrefOp.statBump]
  | incrementStat f =>
    cases f <;> simp [PrefOp.step, PrefOp.acceptedDelta, PrefOp.statBump]
  | directUpdate u =>
    simp [PrefOp.step, PrefOp.acceptedDelta, PrefOp.statBump]

/-- C9 amended: over any operation sequence the stored
`preference_changes_count` is non-decreasing, and it advances by exactly
one for each accepted delta *and* for each direct
`incrementInteractionStats` bump performed by `chatController` on a
detected new preference — the counter is not changed only by accepted
deltas. -/
theorem changeCount_monotone_and_counted (ops : List PrefOp) :
    ∀ row : StoredPrefRow,
      row.preference_changes_count ≤
          (runPrefOps row ops).preference_changes_count ∧
        (runPrefOps row ops).preference_changes_count =
          row.preference_changes_count +
            ops.countP (fun op => op.acceptedDelta || op.statBump) := by
  induction ops with
  | nil =>
    intro row
    simp [runPrefOps]
  | cons op t ih =>
    intro row
    have hstep := step_changes_count row op
    have ht := ih (PrefOp.step row op)
    have heq : runPrefOps row (op :: t) = runPrefOps (PrefOp.step row op) t :=
      rfl
    rw [heq]
    refine ⟨?_, ?_⟩
    · calc row.preference_changes_count
          ≤ (PrefOp.step row op).preference_changes_count := by
            rw [hstep]; omega
        _ ≤ (runPrefOps (PrefOp.step row op) t).preference_changes_count :=
            ht.1
    · rw [ht.2, hstep, List.countP_cons]
      cases hb : (op.acceptedDelta || op.statBump) <;> simp [hb]
      omega

/-- C9 counterexample: a single `incrementInteractionStats` call on
`preference_changes_count` — the bump `chatController` performs on any
detected new preference — advances the stored counter from 0 to 1 with
no accepted preference delta anywhere in the sequence. -/
theorem changeCount_counterexample :
    (runPrefOps ⟨defaultPrefs, 0, 0, 0⟩
        [.incrementStat .preference_changes_count]).preference_changes_count
      = 1 ∧
    List.countP (fun op => PrefOp.acceptedDelta op)
        [PrefOp.incrementStat .preference_changes_count] = 0 :=
  ⟨rfl, rfl⟩

/-- `Map.set` then `Map.get` on the same key returns the stored value. -/
theorem getAssoc_setAssoc {β : Type} (l : List (String × β)) (k : String)
    (v : β) : getAssoc (setAssoc l k v) k = some v := by
  induction l with
  | nil => simp [setAssoc, getAssoc]
  | cons p rest ih =>
    by_cases h : p.1 = k
    · simp [setAssoc, getAssoc, h]
    · simp [setAssoc, getAssoc, h, ih]

/-- C10: once the generator's in-memory cache holds a user's
preferences, `getUserPreferences` returns the cached record without any
database read and without changing state, so a `user_preferences` row
updated by another component is not reflected; and both
`getUserPreferences` and `updateUserPreferences` leave the cache
populated for the user. -/
theorem spg_cache_shadows_db :
    (∀ (st : SPGState) (userId : String) (p row : Prefs),
      getAssoc st.cache userId = some p →
      (SPG.getUserPreferences st userId).prefs = p ∧
        (SPG.getUserPreferences st userId).dbRead = false ∧
        (SPG.getUserPreferences st userId).state = st ∧
        (SPG.getUserPreferences (externalDbWrite st userId row)
            userId).prefs = p ∧
        (SPG.getUserPreferences (externalDbWrite st userId row)
            userId).dbRead = false) ∧
    (∀ (st : SPGState) (userId : String),
      getAssoc ((SPG.getUserPreferences st userId).state).cache userId =
        some ((SPG.getUserPreferences st userId).prefs)) ∧
    (∀ (st : SPGState) (userId : String) (updates : PrefUpdates)
      (currentPrefs : Prefs),
      getAssoc ((SPG.updateUserPreferences st userId updates
          currentPrefs).2).cache userId =
        some (applyPrefUpdates currentPrefs updates)) := by
  refine ⟨?_, ?_, ?_⟩
  · intro st userId p row hcache
    refine ⟨?_, ?_, ?_, ?_, ?_⟩ <;>
      simp [SPG.getUserPreferences, externalDbWrite, hcache]
  · intro st userId
    unfold SPG.getUserPreferences
    cases hc : getAssoc st.cache userId with
    | some cached => simpa using hc
    | none =>
      cases hd : getAssoc st.db userId with
      | some r => simp [getAssoc_setAssoc]
      | none => simp [getAssoc_setAssoc]
  · intro st userId updates currentPrefs
    simp [SPG.updateUserPreferences, getAssoc_setAssoc]

/-- C10 witness: with `u1` cached, the read returns the cached record
with no database access, even after an external write replaces the
table row. -/
theorem spg_cache_shadows_db_witness :
    getAssoc exSPGSt.cache "u1" = some exCachedPrefs ∧
    ((SPG.getUserPreferences exSPGSt "u1").prefs = exCachedPrefs ∧
      (SPG.getUserPreferences exSPGSt "u1").dbRead = false ∧
      (SPG.getUserPreferences exSPGSt "u1").state = exSPGSt ∧
      (SPG.getUserPreferences (externalDbWrite exSPGSt "u1" defaultPrefs)
          "u1").prefs = exCachedPrefs ∧
      (SPG.getUserPreferences (externalDbWrite exSPGSt "u1" defaultPrefs)
          "u1").dbRead = false) :=
  ⟨rfl, spg_cache_shadows_db.1 exSPGSt "u1" exCachedPrefs defaultPrefs rfl⟩

/-- Folding an update whose guarded branch forces a projection to `v`
keeps `v` once established. -/
theorem foldl_keepConst {α σ β : Type} (upd : σ → α → σ) (proj : σ → β)
    (c : α → Bool) (v : β)
    (hset : ∀ s a, c a = true → proj (upd s a) = v)
    (hkeep : ∀ s a, c a = false → proj (upd s a) = proj s) :
    ∀ (l : List α) (s : σ), proj s = v → proj (l.foldl upd s) = v := by
  intro l
  induction l with
  | nil => intro s h; exact h
  | cons a t ih =>
    intro s h
    cases hc : c a with
    | true => exact ih _ (hset s a hc)
    | false => exact ih _ ((hkeep s a hc).trans h)

/-- If some list element satisfies the guard, the fold's projection ends
at the forced value `v`, whatever the start state. -/
theorem foldl_anyConst {α σ β : Type} (upd : σ → α → σ) (proj : σ → β)
    (c : α → Bool) (v : β)
    (hset : ∀ s a, c a = true → proj (upd s a) = v)
    (hkeep : ∀ s a, c a = false → proj (upd s a) = proj s) :
    ∀ (l : List α) (s : σ), l.any c = true → proj (l.foldl upd s) = v := by
  intro l
  induction l with
  | nil => intro s h; simp at h
  | cons a t ih =>
    intro s hany
    cases hc : c a with
    | true => exact foldl_keepConst upd proj c v hset hkeep t _ (hset s a hc)
    | false =>
      apply ih
      simpa [List.any_cons, hc] using hany

/-- Field-wise characterization of one removal step: the matched field is
reset to its default; every other field is untouched. -/
theorem removeOnePref_eq (s : Prefs × CustomPrefs) (a : String) :
    removeOnePref s a =
      (⟨{ learningStyle := if a = "learningStyle" then "mixed"
            else s.1.learningStyle,
          pace := if a = "pace" then "normal" else s.1.pace,
          complexity := if a = "complexity" then "intermediate"
            else s.1.complexity,
          explanationStyle := if a = "explanation_style" then "balanced"
            else s.1.explanationStyle,
          formatPreference := if a = "formatPreference" ∨ a = "output_format"
            then "text" else s.1.formatPreference,
          wants_examples := if a = "wants_examples" then true
            else s.1.wants_examples,
          wants_analogies := if a = "wants_analogies" then true
            else s.1.wants_analogies,
          wants_exercises := if a = "wants_exercises" then true
            else s.1.wants_exercises,
          custom := s.1.custom },
        { s.2 with output_format :=
            if a = "formatPreference" ∨ a = "output_format" then some "text"
            else s.2.output_format }⟩) := by
  by_cases h1 : a = "formatPreference"
  · subst h1; simp [removeOnePref]
  by_cases h2 : a = "output_format"
  · subst h2; simp [removeOnePref]
  by_cases h3 : a = "explanation_style"
  · subst h3; simp [removeOnePref]
  by_cases h4 : a = "learningStyle"
  · subst h4; simp [removeOnePref]
  by_cases h5 : a = "pace"
  · subst h5; simp [removeOnePref]
  by_cases h6 : a = "complexity"
  · subst h6; simp [removeOnePref]
  by_cases h7 : a = "wants_examples"
  · subst h7; simp [removeOnePref]
  by_cases h8 : a = "wants_analogies"
  · subst h8; simp [removeOnePref]
  by_cases h9 : a = "wants_exercises"
  · subst h9; simp [removeOnePref]
  simp [removeOnePref, h1, h2, h3, h4, h5, h6, h7, h8, h9]

theorem removalLoop_formatPreference (l : List String)
    (s : Prefs × CustomPrefs)
    (h : l.any (fun p => p == "formatPreference" || p == "output_format") =
      true) : (l.foldl removeOnePref s).1.formatPreference = "text" := by
  refine foldl_anyConst removeOnePref (fun s => s.1.formatPreference) _
    "text" ?_ ?_ l s h
  · intro s a ha
    have ha' : a = "formatPreference" ∨ a = "output_format" := by
      simpa using ha
    simp [removeOnePref_eq, ha']
  · intro s a ha
    have ha' : ¬ a = "formatPreference" ∧ ¬ a = "output_format" := by
      simpa using ha
    simp [removeOnePref_eq, ha'.1, ha'.2]

theorem removalLoop_explanationStyle (l : List String)
    (s : Prefs × CustomPrefs) (h : l.any (fun p => p == "explanation_style") =
      true) : (l.foldl removeOnePref s).1.explanationStyle = "balanced" := by
  refine foldl_anyConst removeOnePref (fun s => s.1.explanationStyle) _
    "balanced" ?_ ?_ l s h
  · intro s a ha
    have ha' : a = "explanation_style" := by simpa using ha
    simp [removeOnePref_eq, ha']
  · intro s a ha
    have ha' : ¬ a = "explanation_style" := by simpa using ha
    simp [removeOnePref_eq, ha']

theorem removalLoop_learningStyle (l : List String)
    (s : Prefs × CustomPrefs)
    (h : l.any (fun p => p == "learningStyle") = true) :
    (l.foldl removeOnePref s).1.learningStyle = "mixed" := by
  refine foldl_anyConst removeOnePref (fun s => s.1.learningStyle) _
    "mixed" ?_ ?_ l s h
  · intro s a ha
    have ha' : a = "learningStyle" := by simpa using ha
    simp [removeOnePref_eq, ha']
  · intro s a ha
    have ha' : ¬ a = "learningStyle" := by simpa using ha
    simp [removeOnePref_eq, ha']

theorem removalLoop_pace (l : List String) (s : Prefs × CustomPrefs)
    (h : l.any (fun p => p == "pace") = true) :
    (l.foldl removeOnePref s).1.pace = "normal" := by
  refine foldl_anyConst removeOnePref (fun s => s.1.pace) _ "normal"
    ?_ ?_ l s h
  · intro s a ha
    have ha' : a = "pace" := by simpa using ha
    simp [removeOnePref_eq, ha']
  · intro s a ha
    have ha' : ¬ a = "pace" := by simpa using ha
    simp [removeOnePref_eq, ha']

theorem removalLoop_complexity (l : List String) (s : Prefs × CustomPrefs)
    (h : l.any (fun p => p == "complexity") = true) :
    (l.foldl removeOnePref s).1.complexity = "intermediate" := by
  refine foldl_anyConst removeOnePref (fun s => s.1.complexity) _
    "intermediate" ?_ ?_ l s h
  · intro s a ha
    have ha' : a = "complexity" := by simpa using ha
    simp [removeOnePref_eq, ha']
  · intro s a ha
    have ha' : ¬ a = "complexity" := by simpa using ha
    simp [removeOnePref_eq, ha']

theorem removalLoop_wantsExamples (l : List String)
    (s : Prefs × CustomPrefs)
    (h : l.any (fun p => p == "wants_examples") = true) :
    (l.foldl removeOnePref s).1.wants_examples = true := by
  refine foldl_anyConst removeOnePref (fun s => s.1.wants_examples) _
    true ?_ ?_ l s h
  · intro s a ha
    have ha' : a = "wants_examples" := by simpa using ha
    simp [removeOnePref_eq, ha']
  · intro s a ha
    have ha' : ¬ a = "wants_examples" := by simpa using ha
    simp [removeOnePref_eq, ha']

theorem removalLoop_wantsAnalogies (l : List String)
    (s : Prefs × CustomPrefs)
    (h : l.any (fun p => p == "wants_analogies") = true) :
    (l.foldl removeOnePref s).1.wants_analogies = true := by
  refine foldl_anyConst removeOnePref (fun s => s.1.wants_analogies) _
    true ?_ ?_ l s h
  · intro s a ha
    have ha' : a = "wants_analogies" := by simpa using ha
    simp [removeOnePref_eq, ha']
  · intro s a ha
    have ha' : ¬ a = "wants_analogies" := by simpa using ha
    simp [removeOnePref_eq, ha']

theorem removalLoop_wantsExercises (l : List String)
    (s : Prefs × CustomPrefs)
    (h : l.any (fun p => p == "wants_exercises") = true) :
    (l.foldl removeOnePref s).1.wants_exercises = true := by
  refine foldl_anyConst removeOnePref (fun s => s.1.wants_exercises) _
    true ?_ ?_ l s h
  · intro s a ha
    have ha' : a = "wants_exercises" := by simpa using ha
    simp [removeOnePref_eq, ha']
  · intro s a ha
    have ha' : ¬ a = "wants_exercises" := by simpa using ha
    simp [removeOnePref_eq, ha']

/-- C4 counterexample: a delta that both sets `formatPreference` to
`video` and removes the same field yields `text` — the removal wins,
because `updateUserPreferences` applies sets first and removals after
them, contrary to the claimed "sets are applied after removals". -/
theorem set_vs_removal_counterexample :
    (applyPrefUpdates defaultPrefs
        { formatPreference := some "video",
          removePreferences := ["formatPreference"] }).formatPreference =
      "text" ∧
    ¬ (applyPrefUpdates defaultPrefs
        { formatPreference := some "video",
          removePreferences := ["formatPreference"] }).formatPreference =
      "video" := by
  exact ⟨by decide, by decide⟩

/-- C4 amended: a removal resets the named field to its documented
default value — a concrete value, never null — and this holds whatever
the delta's sets contain: removals are applied after sets, so a removal
of a field wins over a set of the same field in one delta. -/
theorem removal_resets_defaults (cur : Prefs) (up : PrefUpdates) :
    ("formatPreference" ∈ up.removePreferences ∨
        "output_format" ∈ up.removePreferences →
      (applyPrefUpdates cur up).formatPreference = "text") ∧
    ("explanation_style" ∈ up.removePreferences →
      (applyPrefUpdates cur up).explanationStyle = "balanced") ∧
    ("learningStyle" ∈ up.removePreferences →
      (applyPrefUpdates cur up).learningStyle = "mixed") ∧
    ("pace" ∈ up.removePreferences →
      (applyPrefUpdates cur up).pace = "normal") ∧
    ("complexity" ∈ up.removePreferences →
      (applyPrefUpdates cur up).complexity = "intermediate") ∧
    ("wants_examples" ∈ up.removePreferences →
      (applyPrefUpdates cur up).wants_examples = true) ∧
    ("wants_analogies" ∈ up.removePreferences →
      (applyPrefUpdates cur up).wants_analogies = true) ∧
    ("wants_exercises" ∈ up.removePreferences →
      (applyPrefUpdates cur up).wants_exercises = true) := by
  refine ⟨?_, ?_, ?_, ?_, ?_, ?_, ?_, ?_⟩
  · intro h
    have hany : up.removePreferences.any
        (fun p => p == "formatPreference" || p == "output_format") = true := by
      rcases h with h | h <;> exact List.any_eq_true.mpr ⟨_, h, by simp⟩
    show (up.removePreferences.foldl removeOnePref
      (applyPrefSets cur up)).1.formatPreference = "text"
    exact removalLoop_formatPreference _ _ hany
  · intro h
    show (up.removePreferences.foldl removeOnePref
      (applyPrefSets cur up)).1.explanationStyle = "balanced"
    exact removalLoop_explanationStyle _ _
      (List.any_eq_true.mpr ⟨_, h, by simp⟩)
  · intro h
    show (up.removePreferences.foldl removeOnePref
      (applyPrefSets cur up)).1.learningStyle = "mixed"
    exact removalLoop_learningStyle _ _ (List.any_eq_true.mpr ⟨_, h, by simp⟩)
  · intro h
    show (up.removePreferences.foldl removeOnePref
      (applyPrefSets cur up)).1.pace = "normal"
    exact removalLoop_pace _ _ (List.any_eq_true.mpr ⟨_, h, by simp⟩)
  · intro h
    show (up.removePreferences.foldl removeOnePref
      (applyPrefSets cur up)).1.complexity = "intermediate"
    exact removalLoop_complexity _ _ (List.any_eq_true.mpr ⟨_, h, by simp⟩)
  · intro h
    show (up.removePreferences.foldl removeOnePref
      (applyPrefSets cur up)).1.wants_examples = true
    exact removalLoop_wantsExamples _ _ (List.any_eq_true.mpr ⟨_, h, by simp⟩)
  · intro h
    show (up.removePreferences.foldl removeOnePref
      (applyPrefSets cur up)).1.wants_analogies = true
    exact removalLoop_wantsAnalogies _ _ (List.any_eq_true.mpr ⟨_, h, by simp⟩)
  · intro h
    show (up.removePreferences.foldl removeOnePref
      (applyPrefSets cur up)).1.wants_exercises = true
    exact removalLoop_wantsExercises _ _ (List.any_eq_true.mpr ⟨_, h, by simp⟩)

/-- C4 amended witness: with sets and removals of the same fields in one
delta, both fields end at their defaults. -/
theorem removal_resets_defaults_witness :
    ("formatPreference" ∈ exRemovalUp.removePreferences ∨
      "output_format" ∈ exRemovalUp.removePreferences) ∧
    "pace" ∈ exRemovalUp.removePreferences ∧
    (applyPrefUpdates defaultPrefs exRemovalUp).formatPreference = "text" ∧
    (applyPrefUpdates defaultPrefs exRemovalUp).pace = "normal" :=
  ⟨Or.inl (by decide), by decide,
   (removal_resets_defaults defaultPrefs exRemovalUp).1 (Or.inl (by decide)),
   (removal_resets_defaults defaultPrefs exRemovalUp).2.2.2.1 (by decide)⟩

/-- If a pattern is absent from the message, every longer pattern
containing it is absent too. -/
theorem includesL_false_of_sub (msg : List Char) (p q : String)
    (hsub : substrAt p.data q.data = true)
    (hp : includesL msg p = false) : includesL msg q = false := by
  cases hq : includesL msg q with
  | false => rfl
  | true =>
    have hpq : includesL msg p = true := substrAt_trans hsub hq
    rw [hp] at hpq
    exact Bool.noConfusion hpq

/-- A format with no keyword hit has no individual keyword hit. -/
theorem includes_false_of_hasKw_false (msg : List Char) (f : Fmt)
    (k : String) (hk : k ∈ fmtKeywords f)
    (h : hasKeywordOf msg f = false) : includesL msg k = false := by
  cases hx : includesL msg k with
  | false => rfl
  | true =>
    have hany : (fmtKeywords f).any (fun s => includesL msg s) = true :=
      List.any_eq_true.mpr ⟨k, hk, hx⟩
    rw [hasKeywordOf] at h
    rw [hany] at h
    exact Bool.noConfusion h

/-- When exactly one format's keywords occur in the message, the hate
sweep lands on that format's alternative whatever the incoming state. -/
theorem hateSweep_const (msg : List Char) (x : Fmt)
    (hX : hasKeywordOf msg x = true)
    (hO : ∀ y, y ≠ x → hasKeywordOf msg y = false) (st : ScanState) :
    hateSweep msg st = ⟨alternatives x, some (alternatives x), true⟩ := by
  cases x with
  | flashcards =>
    have hv := hO .video (by decide)
    have ht := hO .text (by decide)
    simp [hateSweep, fmtOrder, List.foldl_cons, List.foldl_nil, hX, hv, ht,
      alternatives]
  | video =>
    have hf := hO .flashcards (by decide)
    have ht := hO .text (by decide)
    simp [hateSweep, fmtOrder, List.foldl_cons, List.foldl_nil, hX, hf, ht,
      alternatives]
  | text =>
    have hf := hO .flashcards (by decide)
    have hv := hO .video (by decide)
    simp [hateSweep, fmtOrder, List.foldl_cons, List.foldl_nil, hX, hf, hv,
      alternatives]

/-- Once the sweep is constant and some hate pattern matches, the whole
hate loop is that constant. -/
theorem hateLoop_const (msg : List Char) (cst : ScanState)
    (hsweep : ∀ st, hateSweep msg st = cst)
    (hany : hatePatterns.any (fun p => includesL msg p) = true) :
    ∀ st, hateLoop msg st = cst := by
  intro st
  show id (hatePatterns.foldl
    (fun s p => if includesL msg p then hateSweep msg s else s) st) = cst
  refine foldl_anyConst _ id (fun p => includesL msg p) cst ?_ ?_
    hatePatterns st hany
  · intro s a ha
    simp [ha, hsweep]
  · intro s a ha
    simp [ha]

/-- C3 amended: when the analysis JSON parses and the user message
matches a hate pattern together with keywords of exactly one format `x`,
the call's recommended format is the substitution table's alternative
for `x`, which differs from `x` and coincides with the next-best format
under the spec's precedence order [Flashcards, Video, Text].  (When the
JSON does not parse, or keywords of several formats occur, the
recommendation can equal the rejected format — see the
counterexample.) -/
theorem detect_never_recommends_single_rejected (analysis : PrefAnalysis)
    (cur : Prefs) (userMessage : String) (dbOk : Bool) (x : Fmt)
    (hHate : hatePatterns.any
      (fun p => includesL (lowerData userMessage) p) = true)
    (hX : hasKeywordOf (lowerData userMessage) x = true)
    (hOnly : ∀ y, y ≠ x → hasKeywordOf (lowerData userMessage) y = false) :
    (analyzeAndUpdatePreferences (some analysis) cur userMessage
        dbOk).preferredFormat = alternatives x ∧
      alternatives x ≠ fmtName x ∧
      alternatives x = specNextBestFormat x := by
  refine ⟨?_, by cases x <;> decide, by cases x <;> decide⟩
  have hsweep := hateSweep_const (lowerData userMessage) x hX hOnly
  have hloop := hateLoop_const (lowerData userMessage) _ hsweep hHate
  cases x with
  | flashcards =>
    have hvk := includes_false_of_hasKw_false (lowerData userMessage) .video
      "video" (by simp [fmtKeywords]) (hOnly .video (by decide))
    have hnv := includesL_false_of_sub (lowerData userMessage) "video"
      "hate video" (by decide) hvk
    simp [analyzeAndUpdatePreferences, analyzeCore, hloop, hnv, alternatives]
  | video =>
    have hfk := includes_false_of_hasKw_false (lowerData userMessage)
      .flashcards "flashcard" (by simp [fmtKeywords])
      (hOnly .flashcards (by decide))
    have hnf := includesL_false_of_sub (lowerData userMessage) "flashcard"
      "hate flashcard" (by decide) hfk
    simp [analyzeAndUpdatePreferences, analyzeCore, hloop, hnf, alternatives]
  | text =>
    have hfk := includes_false_of_hasKw_false (lowerData userMessage)
      .flashcards "flashcard" (by simp [fmtKeywords])
      (hOnly .flashcards (by decide))
    have hnf := includesL_false_of_sub (lowerData userMessage) "flashcard"
      "hate flashcard" (by decide) hfk
    simp [analyzeAndUpdatePreferences, analyzeCore, hloop, hnf, alternatives]

/-- C3 amended witness: "i hate videos" matches a hate pattern with
keywords of the video format only, and the call recommends flashcards,
the next-best format. -/
theorem detect_never_recommends_single_rejected_witness :
    hatePatterns.any
      (fun p => includesL (lowerData "i hate videos") p) = true ∧
    hasKeywordOf (lowerData "i hate videos") .video = true ∧
    ((analyzeAndUpdatePreferences (some {}) defaultPrefs "i hate videos"
        true).preferredFormat = alternatives .video ∧
      alternatives .video ≠ fmtName .video ∧
      alternatives .video = specNextBestFormat .video) :=
  ⟨by decide, by decide,
    detect_never_recommends_single_rejected {} defaultPrefs "i hate videos"
      true .video (by decide) (by decide)
      (fun y hy => by
        cases y with
        | flashcards => decide
        | video => exact absurd rfl hy
        | text => decide)⟩

/-- C3 counterexample: the message "avoid flashcards, text please"
matches the code's own hate detection for the flashcards format (hate
pattern "avoid" plus keyword "flashcard"), yet the same call returns
flashcards as the preferred format, because the later text-keyword hit
overwrites the flashcards rejection with `alternatives[text] =
flashcards`. -/
theorem detect_rejected_format_counterexample :
    hatePatterns.any
      (fun p => includesL (lowerData "avoid flashcards, text please") p) =
        true ∧
    hasKeywordOf (lowerData "avoid flashcards, text please") .flashcards =
      true ∧
    (analyzeAndUpdatePreferences (some { updates := some {} }) defaultPrefs
        "avoid flashcards, text please" true).preferredFormat =
      fmtName .flashcards :=
  ⟨by decide, by decide, by decide⟩

/-- Closed form of the retry loop: it breaks at the first passing
attempt, aborts when generation fails on attempt 3, and otherwise ends
after attempt 3 with that attempt's evaluation. -/
theorem teachLoop_eq (outs : ℕ → AttemptOutcome) :
    teachLoop outs =
      if attemptPasses (outs 1) then
        .done 1 (some (attemptEval (outs 1)))
      else if attemptPasses (outs 2) then
        .done 2 (some (attemptEval (outs 2)))
      else if (outs 3).genOk then
        .done 3 (some (attemptEval (outs 3)))
      else .genFailure := by
  show teachLoopAux outs (Nat.succ (Nat.succ (Nat.succ 0))) none 0 = _
  by_cases hg1 : (outs 1).genOk <;>
    by_cases hp1 : ((attemptEval (outs 1)).passed ||
      decide ((attemptEval (outs 1)).totalScore ≥ 70)) = true <;>
    by_cases hg2 : (outs 2).genOk <;>
    by_cases hp2 : ((attemptEval (outs 2)).passed ||
      decide ((attemptEval (outs 2)).totalScore ≥ 70)) = true <;>
    by_cases hg3 : (outs 3).genOk <;>
    simp_all [teachLoopAux, maxAttempts, attemptPasses]

/-- A passing attempt never triggers the post-loop below-threshold
branch. -/
theorem post_if_of_passes (o : AttemptOutcome) (h : attemptPasses o = true) :
    ¬ ((attemptEval o).passed = false ∧ (attemptEval o).totalScore < 70) := by
  simp only [attemptPasses, Bool.and_eq_true, Bool.or_eq_true] at h
  rcases h.2 with hp | hq
  · simp [hp]
  · have hts := of_decide_eq_true hq
    intro hc
    exact absurd hc.2 (not_lt.mpr hts)

/-- A generated but failing attempt always triggers the post-loop
below-threshold branch. -/
theorem post_if_of_fails (o : AttemptOutcome) (hg : o.genOk = true)
    (h : attemptPasses o = false) :
    (attemptEval o).passed = false ∧ (attemptEval o).totalScore < 70 := by
  simp only [attemptPasses, hg, Bool.true_and, Bool.or_eq_false_iff,
    decide_eq_false_iff_not] at h
  exact ⟨h.1, not_le.mp h.2⟩

/-- C1: both retry loops use at most `maxAttempts = 3` generate/evaluate
attempts, and whenever `generateAIResponse` reports `attemptsUsed`, it
equals the smallest attempt number whose evaluation passed, or
`maxAttempts` when no attempt passed. -/
theorem retry_loop_attempts_spec (outs : ℕ → AttemptOutcome) :
    (teachLoop outs).attemptsTaken ≤ maxAttempts ∧
    ∀ n : ℕ, (generateAIResponseResult outs).attemptsUsed = some n →
      n ≤ maxAttempts ∧ n = (firstPassingAttempt outs).getD maxAttempts := by
  have hloop := teachLoop_eq outs
  cases hp1 : attemptPasses (outs 1) with
  | true =>
    have hni := post_if_of_passes _ hp1
    constructor
    · rw [hloop]; simp [hp1, LoopExit.attemptsTaken, maxAttempts]
    · intro n hn
      simp [generateAIResponseResult, hloop, hp1, hni,
        AIOutcome.attemptsUsed] at hn
      simp [firstPassingAttempt, hp1, maxAttempts]
      omega
  | false =>
    cases hp2 : attemptPasses (outs 2) with
    | true =>
      have hni := post_if_of_passes _ hp2
      constructor
      · rw [hloop]; simp [hp1, hp2, LoopExit.attemptsTaken, maxAttempts]
      · intro n hn
        simp [generateAIResponseResult, hloop, hp1, hp2, hni,
          AIOutcome.attemptsUsed] at hn
        simp [firstPassingAttempt, hp1, hp2, maxAttempts]
        omega
    | false =>
      cases hg3 : (outs 3).genOk with
      | true =>
        cases hp3 : attemptPasses (outs 3) with
        | true =>
          have hni := post_if_of_passes _ hp3
          constructor
          · rw [hloop]
            simp [hp1, hp2, hg3, LoopExit.attemptsTaken, maxAttempts]
          · intro n hn
            simp [generateAIResponseResult, hloop, hp1, hp2, hg3, hni,
              AIOutcome.attemptsUsed] at hn
            simp [firstPassingAttempt, hp1, hp2, hp3, maxAttempts]
            omega
        | false =>
          have hyes := post_if_of_fails _ hg3 hp3
          constructor
          · rw [hloop]
            simp [hp1, hp2, hg3, LoopExit.attemptsTaken, maxAttempts]
          · intro n hn
            simp [generateAIResponseResult, hloop, hp1, hp2, hg3, hyes,
              AIOutcome.attemptsUsed, maxAttempts] at hn
            simp [firstPassingAttempt, hp1, hp2, hp3, maxAttempts]
            omega
      | false =>
        constructor
        · rw [hloop]; simp [hp1, hp2, hg3, LoopExit.attemptsTaken, maxAttempts]
        · intro n hn
          simp [generateAIResponseResult, hloop, hp1, hp2, hg3,
            AIOutcome.attemptsUsed] at hn

/-- C1 witness: with scores 55 then 81, the reported `attemptsUsed` is 2,
the smallest passing attempt. -/
theorem retry_loop_attempts_spec_witness :
    (generateAIResponseResult exOuts).attemptsUsed = some 2 ∧
    (2 ≤ maxAttempts ∧ 2 = (firstPassingAttempt exOuts).getD maxAttempts) :=
  ⟨by decide, (retry_loop_attempts_spec exOuts).2 2 (by decide)⟩

/-- C2 counterexample: with the request fields present and the initial
preference-store read succeeding, three straight generation-worker
failures make `generateAIResponse` answer HTTP 500 — a caller-visible
error that is neither StoreUnavailable nor ValidationError, so a
downstream worker failure does surface to the caller. -/
theorem always_result_counterexample :
    generateAIResponse true true true (fun _ => ⟨false, none⟩) =
      .outcome .genFailure ∧
    AIOutcome.isTeachingResult .genFailure = false :=
  ⟨by decide, rfl⟩

/-- C2 amended: with a successful store read, `generateAIResponse`
always produces either a response body or the generation-failure 500,
and the 500 occurs exactly when attempts 1 and 2 do not pass and the
generation call fails on attempt 3; evaluation-worker failures alone
never surface as errors. -/
theorem always_result_amended (outs : ℕ → AttemptOutcome) :
    ((generateAIResponseResult outs).isTeachingResult = true ∨
      generateAIResponseResult outs = .genFailure) ∧
    (generateAIResponse true true true outs = .outcome AIOutcome.genFailure ↔
      attemptPasses (outs 1) = false ∧ attemptPasses (outs 2) = false ∧
        (outs 3).genOk = false) := by
  have hloop := teachLoop_eq outs
  cases hp1 : attemptPasses (outs 1) with
  | true =>
    have hni := post_if_of_passes _ hp1
    constructor
    · left
      simp [generateAIResponseResult, hloop, hp1, hni,
        AIOutcome.isTeachingResult]
    · simp [generateAIResponse, generateAIResponseResult, hloop, hp1, hni]
  | false =>
    cases hp2 : attemptPasses (outs 2) with
    | true =>
      have hni := post_if_of_passes _ hp2
      constructor
      · left
        simp [generateAIResponseResult, hloop, hp1, hp2, hni,
          AIOutcome.isTeachingResult]
      · simp [generateAIResponse, generateAIResponseResult, hloop, hp1, hp2,
          hni]
    | false =>
      cases hg3 : (outs 3).genOk with
      | true =>
        cases hp3 : attemptPasses (outs 3) with
        | true =>
          have hni := post_if_of_passes _ hp3
          constructor
          · left
            simp [generateAIResponseResult, hloop, hp1, hp2, hg3, hni,
              AIOutcome.isTeachingResult]
          · simp [generateAIResponse, generateAIResponseResult, hloop, hp1,
              hp2, hg3, hni]
        | false =>
          have hyes := post_if_of_fails _ hg3 hp3
          constructor
          · left
            simp [generateAIResponseResult, hloop, hp1, hp2, hg3, hyes,
              AIOutcome.isTeachingResult]
          · simp [generateAIResponse, generateAIResponseResult, hloop, hp1,
              hp2, hg3, hyes]
      | false =>
        constructor
        · right
          simp [generateAIResponseResult, hloop, hp1, hp2, hg3]
        · simp [generateAIResponse, generateAIResponseResult, hloop, hp1,
            hp2, hg3]

end AdaptiveLearning
